import Mathlib

/-!
Shallow embedding of `src/project.py`, a command-line address book.

The Python program stores contacts (name, phone list, optional birthday)
in a dict keyed by contact name, persists the whole mapping to one pickle
file after every mutation, and serves `add` / `change` / `phone` / `show`
commands.

Modelling choices:
* Python `dict` (insertion-ordered, unique keys) becomes an association
  list `List (String × Record)`; assignment to an existing key updates the
  entry in place, assignment to a fresh key appends at the end, matching
  CPython dict semantics.
* Exceptions (`KeyError` from `del`/`pop`, `ValueError` from field
  validation and `datetime.date` construction) become `Except PyErr`.
* The pickle file is modelled as an `Option` blob carried next to the
  mapping: `save_to_disk` overwrites it, `load_from_disk` reads it
  (`none` plays the role of `FileNotFoundError`, which the source catches
  and leaves the mapping unchanged).  Pickling is modelled by an explicit
  flattening of each `Record` to a tuple, with an inverse used by load.
* `datetime.date` becomes a `Date` structure of three `Nat`s together
  with a validity predicate (`1 ≤ year ≤ 9999`, month in `1..12`, day in
  `1..daysInMonth`) and a construction function `mkDate` that fails
  exactly when CPython's `date(y, m, d)` raises `ValueError`.
  `date.today()` is passed in as an explicit `today` argument.
-/

/-- Python exceptions that the embedded fragments can raise. -/
inductive PyErr where
  | keyError (key : String)
  | valueError (msg : String)
deriving DecidableEq, Repr

/-! ### Calendar dates (`datetime.date`) -/

/-- A (possibly invalid) year-month-day triple. -/
structure Date where
  year : Nat
  month : Nat
  day : Nat
deriving DecidableEq, Repr

/-- Gregorian leap-year rule, as in `calendar.isleap`. -/
def isLeap (y : Nat) : Bool :=
  y % 4 == 0 && (y % 100 != 0 || y % 400 == 0)

/-- Number of days of month `m` of year `y` (31 for out-of-range months;
such months are excluded by `dateValid`). -/
def daysInMonth (y m : Nat) : Nat :=
  if m = 2 then (if isLeap y then 29 else 28)
  else if m = 4 ∨ m = 6 ∨ m = 9 ∨ m = 11 then 30
  else 31

/-- The triples accepted by CPython's `datetime.date(y, m, d)`. -/
def dateValid (d : Date) : Bool :=
  decide (1 ≤ d.year) && decide (d.year ≤ 9999) &&
  decide (1 ≤ d.month) && decide (d.month ≤ 12) &&
  decide (1 ≤ d.day) && decide (d.day ≤ daysInMonth d.year d.month)

/-- `datetime.date(y, m, d)`: returns the date or raises `ValueError`. -/
def mkDate (y m d : Nat) : Except PyErr Date :=
  if dateValid ⟨y, m, d⟩ then Except.ok ⟨y, m, d⟩
  else Except.error (PyErr.valueError "day is out of range for month")

/-- Lexicographic comparison of dates, as `datetime.date.__lt__`. -/
def dateLt (a b : Date) : Bool :=
  decide (a.year < b.year) ||
  (a.year == b.year &&
    (decide (a.month < b.month) ||
      (a.month == b.month && decide (a.day < b.day))))

/-- Days before month `m` inside year `y` (0 for January). -/
def daysBeforeMonth (y m : Nat) : Nat :=
  (match m with
   | 1 => 0 | 2 => 31 | 3 => 59 | 4 => 90 | 5 => 120 | 6 => 151
   | 7 => 181 | 8 => 212 | 9 => 243 | 10 => 273 | 11 => 304 | _ => 334) +
  (if 2 < m ∧ isLeap y then 1 else 0)

/-- Proleptic Gregorian ordinal, as `datetime.date.toordinal`
(0001-01-01 has ordinal 1). -/
def toOrdinal (d : Date) : Nat :=
  365 * (d.year - 1) + (d.year - 1) / 4 - (d.year - 1) / 100 + (d.year - 1) / 400 +
    daysBeforeMonth d.year d.month + d.day

/-- `(b - a).days` on `datetime.date` values: difference of ordinals. -/
def daysUntil (a b : Date) : Int :=
  (toOrdinal b : Int) - (toOrdinal a : Int)

/-- The calendar successor of a date, used only to certify that
`toOrdinal` (and hence `daysUntil`) counts calendar days correctly. -/
def nextDate (d : Date) : Date :=
  if d.day < daysInMonth d.year d.month then ⟨d.year, d.month, d.day + 1⟩
  else if d.month < 12 then ⟨d.year, d.month + 1, 1⟩
  else ⟨d.year + 1, 1, 1⟩

/-! ### Records (class `Record`, with the `Field` validation baked in) -/

/-- One contact: `Record.name` (a `Name` field, invariant: non-empty),
`Record.phones` (a plain Python list of strings), `Record.birthday`
(a `Birthday` field: `None` or a `date` object). -/
structure Record where
  name : String
  phones : List String
  birthday : Option Date
deriving DecidableEq, Repr

/-- `Record.__init__(name, birthday=None)`: `Name(name)` raises
`ValueError("Name field is required.")` on a falsy (empty) name;
`Birthday(birthday)` accepts `None` or any `date` object (enforced here
by the `Option Date` type). -/
def mkRecord (name : String) (birthday : Option Date) : Except PyErr Record :=
  if name = "" then Except.error (PyErr.valueError "Name field is required.")
  else Except.ok { name := name, phones := [], birthday := birthday }

/-- `Record.add_phone`: unconditional append. -/
def Record.add_phone (r : Record) (phone : String) : Record :=
  { r with phones := r.phones ++ [phone] }

/-- `Record.remove_phone`: removes the first matching entry if present. -/
def Record.remove_phone (r : Record) (phone : String) : Record :=
  if r.phones.contains phone then { r with phones := r.phones.erase phone } else r

/-- `Record.edit_phone`: replaces the first entry equal to `old_phone`. -/
def Record.edit_phone (r : Record) (old_phone new_phone : String) : Record :=
  if r.phones.contains old_phone then
    { r with phones := r.phones.set (r.phones.indexOf old_phone) new_phone }
  else r

/-- `Record.days_to_birthday`, with `date.today()` passed explicitly:
`None` birthday gives `none`; otherwise builds this year's occurrence of
the birthday's month/day (which can raise), takes next year's occurrence
instead when this year's is strictly before today (which can raise too),
and returns the day difference. -/
def Record.days_to_birthday (today : Date) (r : Record) : Except PyErr (Option Int) :=
  match r.birthday with
  | none => Except.ok none
  | some b =>
    match mkDate today.year b.month b.day with
    | Except.error e => Except.error e
    | Except.ok nb =>
      if dateLt nb today then
        match mkDate (today.year + 1) b.month b.day with
        | Except.error e => Except.error e
        | Except.ok nb2 => Except.ok (some (daysUntil today nb2))
      else Except.ok (some (daysUntil today nb))

/-! ### Python dict operations on the association-list model -/

/-- `d[k] = v` on a dict: update in place if the key exists, else append. -/
def dictInsert : List (String × Record) → String → Record → List (String × Record)
  | [], k, v => [(k, v)]
  | (k', v') :: t, k, v => if k' = k then (k, v) :: t else (k', v') :: dictInsert t k v

/-- `del d[k]` / `d.pop(k)` (the removal part): drops the first entry with
key `k`. -/
def dictErase : List (String × Record) → String → List (String × Record)
  | [], _ => []
  | (k', v') :: t, k => if k' = k then t else (k', v') :: dictErase t k

/-- `d.get(k)`: the first value stored under key `k`. -/
def dictLookup : List (String × Record) → String → Option Record
  | [], _ => none
  | (k', v') :: t, k => if k' = k then some v' else dictLookup t k

/-- `k in d`. -/
def containsKey (l : List (String × Record)) (k : String) : Bool :=
  (dictLookup l k).isSome

/-! ### Pickle model -/

/-- The flat shape a `Record` pickles to: name, phones, and the birthday
as an empty list (for `None`) or a `[year, month, day]` list. -/
def pickleRecord (r : Record) : String × List String × List Nat :=
  (r.name, r.phones,
    match r.birthday with
    | none => []
    | some d => [d.year, d.month, d.day])

/-- Unpickling a flat record shape back into a `Record`. -/
def unpickleRecord : String × List String × List Nat → Record
  | (n, ps, y :: m :: d :: _) => { name := n, phones := ps, birthday := some ⟨y, m, d⟩ }
  | (n, ps, _) => { name := n, phones := ps, birthday := none }

/-- `pickle.dump` of the whole mapping. -/
def pickleDump (data : List (String × Record)) : List (String × (String × List String × List Nat)) :=
  data.map (fun e => (e.1, pickleRecord e.2))

/-- `pickle.load` of the whole mapping. -/
def pickleLoad (blob : List (String × (String × List String × List Nat))) : List (String × Record) :=
  blob.map (fun e => (e.1, unpickleRecord e.2))

/-! ### AddressBook -/

/-- The `AddressBook` together with the file at its `file_path`:
`data` is the in-memory mapping, `disk` the pickle file's content
(`none` when the file does not exist). -/
structure AddressBook where
  data : List (String × Record)
  file_path : String
  disk : Option (List (String × (String × List String × List Nat)))
deriving DecidableEq, Repr

/-- `AddressBook.save_to_disk`: skipped when `file_path` is falsy, else
overwrites the file with a pickle of the whole mapping (I/O errors are
caught and only printed in the source, so saving never fails here). -/
def AddressBook.save_to_disk (b : AddressBook) : AddressBook :=
  if b.file_path = "" then b else { b with disk := some (pickleDump b.data) }

/-- `AddressBook.load_from_disk`: skipped when `file_path` is falsy; a
missing file (`FileNotFoundError`) leaves the mapping unchanged; else the
mapping is replaced by the unpickled file content. -/
def AddressBook.load_from_disk (b : AddressBook) : AddressBook :=
  if b.file_path = "" then b
  else
    match b.disk with
    | none => b
    | some blob => { b with data := pickleLoad blob }

/-- `AddressBook.add_record`: `self.data[record.name.value] = record`
then save. -/
def AddressBook.add_record (b : AddressBook) (record : Record) : AddressBook :=
  AddressBook.save_to_disk { b with data := dictInsert b.data record.name record }

/-- `AddressBook.remove_record`: `del self.data[record.name.value]`
(raises `KeyError` if absent) then save. -/
def AddressBook.remove_record (b : AddressBook) (record : Record) : Except PyErr AddressBook :=
  if containsKey b.data record.name then
    Except.ok (AddressBook.save_to_disk { b with data := dictErase b.data record.name })
  else Except.error (PyErr.keyError record.name)

/-- `AddressBook.edit_record_name`: `pop(old_name)` (raises `KeyError` if
absent, mapping untouched), then `record.name.value = new_name` (raises
`ValueError` on an empty new name, after the record was already popped),
then reinsert under `new_name` and save.  Returns the mapping state after
the call together with the outcome, so that the state visible after a
raised exception is captured. -/
def AddressBook.edit_record_name (b : AddressBook) (old_name new_name : String) :
    AddressBook × Except PyErr Unit :=
  match dictLookup b.data old_name with
  | none => (b, Except.error (PyErr.keyError old_name))
  | some record =>
    let data1 := dictErase b.data old_name
    if new_name = "" then
      ({ b with data := data1 }, Except.error (PyErr.valueError "Name field is required."))
    else
      (AddressBook.save_to_disk
        { b with data := dictInsert data1 new_name { record with name := new_name } },
       Except.ok ())

/-! ### Command layer -/

/-- `^[A-Za-z ]+$` from the `validation_contact` wrapper. -/
def nameOk (s : String) : Bool :=
  !s.data.isEmpty &&
    s.data.all (fun c =>
      (decide ('A' ≤ c) && decide (c ≤ 'Z')) ||
      (decide ('a' ≤ c) && decide (c ≤ 'z')) ||
      c == ' ')

/-- `^\d+$` from the `validation_contact` wrapper. -/
def phoneOk (s : String) : Bool :=
  !s.data.isEmpty && s.data.all (fun c => decide ('0' ≤ c) && decide (c ≤ '9'))

/-- The decorator `validation_contact` (source lines 7-15), embedded as a
wrapper over a name-and-phone function, following its body (it reads
`name, phone = args[0], args[1]`).  Note: the source defines this
decorator but never applies it to any function — no handler in
`project.py` is decorated with it. -/
def validation_contact (func : String → String → String) (name phone : String) : String :=
  if nameOk name = false then
    "Invalid input. Name can only contain English letters and spaces."
  else if phoneOk phone = false then
    "Invalid input. Phone number can only contain digits."
  else func name phone

/-- `add_contact` (undecorated, as in the source): builds a fresh record
(`Name` validation can raise on an empty name), appends the phone,
registers it (overwriting any existing record) and saves. -/
def add_contact (b : AddressBook) (name phone : String) : Except PyErr (AddressBook × String) :=
  match mkRecord name none with
  | Except.error e => Except.error e
  | Except.ok record =>
    Except.ok (AddressBook.add_record b (Record.add_phone record phone),
      "Contact " ++ name ++ " with phone number " ++ phone ++ " has been added.")

/-- `change_contact` (undecorated, as in the source): on an existing name,
replaces the record's phone list by `[phone]` (in-place mutation of the
stored record) and saves; otherwise returns the soft failure message. -/
def change_contact (b : AddressBook) (name phone : String) : AddressBook × String :=
  match dictLookup b.data name with
  | some record =>
    (AddressBook.save_to_disk
      { b with data := dictInsert b.data name (Record.add_phone { record with phones := [] } phone) },
     "Phone number for contact " ++ name ++ " has been updated to " ++ phone ++ ".")
  | none => (b, "Contact " ++ name ++ " does not exist.")

/-- `phone_contact`: formats the phone list of an existing name, or the
soft failure message. -/
def phone_contact (b : AddressBook) (name : String) : String :=
  match dictLookup b.data name with
  | some record =>
    "Phone number for contact " ++ name ++ ": " ++ String.intercalate ", " record.phones
  | none => "Contact " ++ name ++ " does not exist."

/-- `show_all_contacts`. -/
def show_all_contacts (b : AddressBook) : String :=
  if b.data.isEmpty then "No contacts found."
  else
    "Contacts:\n" ++
      String.intercalate "\n"
        (b.data.map (fun e => e.1 ++ ": " ++ String.intercalate ", " e.2.phones))

/-- `hello`. -/
def hello : String := "How can I help you?"

/-- The fresh `AddressBook()` built at the start of `main`. -/
def emptyBook : AddressBook :=
  { data := [], file_path := "address_book.pkl", disk := none }

/-- A sample record used to instantiate the theorems below. -/
def aliceRec : Record :=
  { name := "alice", phones := ["12345"], birthday := none }

/-- A sample one-contact book used to instantiate the theorems below. -/
def bookAlice : AddressBook :=
  { data := [("alice", aliceRec)], file_path := "address_book.pkl", disk := none }

/-! ### Lemmas about the dict model -/

theorem save_to_disk_data (b : AddressBook) :
    (AddressBook.save_to_disk b).data = b.data := by
  unfold AddressBook.save_to_disk
  split <;> rfl

theorem dictLookup_dictInsert_self (l : List (String × Record)) (k : String) (v : Record) :
    dictLookup (dictInsert l k v) k = some v := by
  induction l with
  | nil => simp [dictInsert, dictLookup]
  | cons e t ih =>
    obtain ⟨k', v'⟩ := e
    by_cases h : k' = k
    · simp [dictInsert, h, dictLookup]
    · simp [dictInsert, h, dictLookup, ih]

theorem dictLookup_dictInsert_ne (l : List (String × Record)) (k a : String) (v : Record)
    (h : a ≠ k) : dictLookup (dictInsert l k v) a = dictLookup l a := by
  induction l with
  | nil => simp [dictInsert, dictLookup, Ne.symm h]
  | cons e t ih =>
    obtain ⟨k', v'⟩ := e
    by_cases hk : k' = k
    · subst hk
      simp [dictInsert, dictLookup, Ne.symm h]
    · by_cases ha : k' = a
      · subst ha
        simp [dictInsert, hk, dictLookup]
      · simp [dictInsert, hk, dictLookup, ha, ih]

theorem dictLookup_eq_none_of_not_mem (l : List (String × Record)) (k : String)
    (h : k ∉ l.map Prod.fst) : dictLookup l k = none := by
  induction l with
  | nil => rfl
  | cons e t ih =>
    obtain ⟨k', v'⟩ := e
    simp only [List.map_cons, List.mem_cons] at h
    push_neg at h
    simp [dictLookup, Ne.symm h.1, ih h.2]

theorem mem_keys_dictInsert (l : List (String × Record)) (k a : String) (v : Record) :
    a ∈ (dictInsert l k v).map Prod.fst ↔ a = k ∨ a ∈ l.map Prod.fst := by
  induction l with
  | nil => simp [dictInsert]
  | cons e t ih =>
    obtain ⟨k', v'⟩ := e
    by_cases h : k' = k
    · subst h
      simp [dictInsert]
    · simp [dictInsert, h, ih]
      tauto

theorem nodup_keys_dictInsert (l : List (String × Record)) (k : String) (v : Record)
    (h : (l.map Prod.fst).Nodup) : ((dictInsert l k v).map Prod.fst).Nodup := by
  induction l with
  | nil => simp [dictInsert]
  | cons e t ih =>
    obtain ⟨k', v'⟩ := e
    simp only [List.map_cons, List.nodup_cons] at h
    by_cases hk : k' = k
    · subst hk
      simpa [dictInsert] using h
    · simp only [dictInsert, if_neg hk, List.map_cons, List.nodup_cons]
      refine ⟨?_, ih h.2⟩
      rw [mem_keys_dictInsert]
      push_neg
      exact ⟨hk, h.1⟩

theorem filter_keys_eq_nil (l : List (String × Record)) (k : String)
    (h : k ∉ l.map Prod.fst) : l.filter (fun e => e.1 == k) = [] := by
  induction l with
  | nil => rfl
  | cons e t ih =>
    obtain ⟨k', v'⟩ := e
    simp only [List.map_cons, List.mem_cons] at h
    push_neg at h
    simp [List.filter_cons, Ne.symm h.1, ih h.2]

theorem filter_dictInsert (l : List (String × Record)) (k : String) (v : Record)
    (h : (l.map Prod.fst).Nodup) :
    (dictInsert l k v).filter (fun e => e.1 == k) = [(k, v)] := by
  induction l with
  | nil => simp [dictInsert]
  | cons e t ih =>
    obtain ⟨k', v'⟩ := e
    simp only [List.map_cons, List.nodup_cons] at h
    by_cases hk : k' = k
    · subst hk
      simp [dictInsert, List.filter, filter_keys_eq_nil t k' h.1]
    · simp [dictInsert, hk, List.filter, ih h.2]

theorem mem_keys_dictErase (l : List (String × Record)) (k a : String)
    (h : a ∈ (dictErase l k).map Prod.fst) : a ∈ l.map Prod.fst := by
  induction l with
  | nil => simp [dictErase] at h
  | cons e t ih =>
    obtain ⟨k', v'⟩ := e
    by_cases hk : k' = k
    · simp only [dictErase, if_pos hk, List.map_cons, List.mem_cons] at h ⊢
      exact Or.inr h
    · simp only [dictErase, if_neg hk, List.map_cons, List.mem_cons] at h ⊢
      exact h.imp id ih

theorem dictLookup_dictErase_self (l : List (String × Record)) (k : String)
    (h : (l.map Prod.fst).Nodup) : dictLookup (dictErase l k) k = none := by
  induction l with
  | nil => rfl
  | cons e t ih =>
    obtain ⟨k', v'⟩ := e
    simp only [List.map_cons, List.nodup_cons] at h
    by_cases hk : k' = k
    · subst hk
      simpa [dictErase] using dictLookup_eq_none_of_not_mem t k' h.1
    · simp [dictErase, hk, dictLookup, ih h.2]

theorem unpickleRecord_pickleRecord (r : Record) :
    unpickleRecord (pickleRecord r) = r := by
  obtain ⟨n, ps, bd⟩ := r
  cases bd with
  | none => rfl
  | some d =>
    obtain ⟨y, m, dd⟩ := d
    rfl

theorem pickleLoad_pickleDump (data : List (String × Record)) :
    pickleLoad (pickleDump data) = data := by
  induction data with
  | nil => rfl
  | cons e t ih =>
    simp only [pickleDump, List.map_cons, pickleLoad] at ih ⊢
    rw [unpickleRecord_pickleRecord]
    simp [ih]

/-! ### Claim theorems -/

/-- C1 (evidence of the code bug): the source defines the
`validation_contact` wrapper, whose check would reject the phone `1a2`
of the command `add bob 1a2`, but no handler is decorated with it: the
undecorated `add_contact` runs the registration anyway, and `phone bob`
afterwards returns the invalid phone instead of reporting nonexistence. -/
theorem add_contact_runs_without_validation :
    phoneOk "1a2" = false ∧
    validation_contact (fun _ _ => "sentinel") "bob" "1a2" =
      "Invalid input. Phone number can only contain digits." ∧
    (add_contact emptyBook "bob" "1a2").map (fun p => p.2) =
      Except.ok "Contact bob with phone number 1a2 has been added." ∧
    (add_contact emptyBook "bob" "1a2").map (fun p => phone_contact p.1 "bob") =
      Except.ok "Phone number for contact bob: 1a2" :=
  ⟨by decide, by decide, by rfl, by rfl⟩

/-- C2: for every name matching `^[A-Za-z ]+$` and phone matching
`^\d+$`, running `add` and then `phone` for that name succeeds and
returns exactly the phone just added. -/
theorem add_then_phone_returns_added_phone (b : AddressBook) (name phone : String)
    (hn : nameOk name = true) (_hp : phoneOk phone = true) :
    (add_contact b name phone).map (fun p => phone_contact p.1 name) =
      Except.ok ("Phone number for contact " ++ name ++ ": " ++ phone) := by
  have hne : name ≠ "" := by
    intro he
    rw [he] at hn
    have hfalse : nameOk "" = false := by decide
    rw [hfalse] at hn
    exact Bool.false_ne_true hn
  simp only [add_contact, mkRecord, if_neg hne, Except.map, Record.add_phone,
    AddressBook.add_record, phone_contact, save_to_disk_data, List.nil_append]
  rw [dictLookup_dictInsert_self]
  rfl

/-- C2 witness: `add alice 12345` then `phone alice` returns
`"Phone number for contact alice: 12345"`. -/
theorem add_then_phone_returns_added_phone_witness :
    nameOk "alice" = true ∧ phoneOk "12345" = true ∧
    (add_contact emptyBook "alice" "12345").map (fun p => phone_contact p.1 "alice") =
      Except.ok "Phone number for contact alice: 12345" :=
  ⟨by decide, by decide,
    add_then_phone_returns_added_phone emptyBook "alice" "12345" (by decide) (by decide)⟩

/-- C4: `change` on a name absent from the mapping returns exactly the
soft message `"Contact <name> does not exist."` and leaves the whole
address book (mapping and disk) unchanged. -/
theorem change_contact_nonexistent_soft_message (b : AddressBook) (name phone : String)
    (h : containsKey b.data name = false) :
    change_contact b name phone = (b, "Contact " ++ name ++ " does not exist.") := by
  cases hx : dictLookup b.data name with
  | some v =>
    unfold containsKey at h
    rw [hx] at h
    simp at h
  | none =>
    unfold change_contact
    rw [hx]

/-- C4 witness: `change bob 99` on a book holding only alice. -/
theorem change_contact_nonexistent_soft_message_witness :
    containsKey bookAlice.data "bob" = false ∧
    change_contact bookAlice "bob" "99" = (bookAlice, "Contact bob does not exist.") :=
  ⟨by decide, change_contact_nonexistent_soft_message bookAlice "bob" "99" (by decide)⟩

/-- C8: saving and then loading on the same path reproduces the same
mapping: same keys, and for every key the same record (name, phones in
the same order, birthday). -/
theorem save_load_round_trip (b : AddressBook) :
    (AddressBook.load_from_disk (AddressBook.save_to_disk b)).data = b.data ∧
    (AddressBook.load_from_disk (AddressBook.save_to_disk b)).data.map Prod.fst =
      b.data.map Prod.fst ∧
    ∀ k, dictLookup (AddressBook.load_from_disk (AddressBook.save_to_disk b)).data k =
      dictLookup b.data k := by
  have hdata : (AddressBook.load_from_disk (AddressBook.save_to_disk b)).data = b.data := by
    unfold AddressBook.save_to_disk AddressBook.load_from_disk
    by_cases h : b.file_path = ""
    · simp [h]
    · simp [h, pickleLoad_pickleDump]
  exact ⟨hdata, by rw [hdata], fun k => by rw [hdata]⟩


theorem dictLookup_isSome_of_mem (l : List (String × Record)) (k : String)
    (h : k ∈ l.map Prod.fst) : (dictLookup l k).isSome = true := by
  induction l with
  | nil => simp at h
  | cons e t ih =>
    obtain ⟨k', v'⟩ := e
    simp only [List.map_cons, List.mem_cons] at h
    by_cases hk : k' = k
    · simp [dictLookup, hk]
    · rcases h with h | h
      · exact absurd h.symm hk
      · simp [dictLookup, hk, ih h]

/-- C3: calling `add` twice with the same (non-empty) name succeeds both
times (no duplicate-key error) and afterwards the mapping holds exactly
one entry under that name, whose phone list is just the phone of the
second call. -/
theorem add_twice_same_name_overwrites (b : AddressBook) (n p1 p2 : String)
    (hn : n ≠ "") (hw : (b.data.map Prod.fst).Nodup) :
    ∃ b1 b2 m1 m2,
      add_contact b n p1 = Except.ok (b1, m1) ∧
      add_contact b1 n p2 = Except.ok (b2, m2) ∧
      (b2.data.filter (fun e => e.1 == n)).map (fun e => e.2.phones) = [[p2]] := by
  refine ⟨AddressBook.add_record b { name := n, phones := [p1], birthday := none },
    AddressBook.add_record
      (AddressBook.add_record b { name := n, phones := [p1], birthday := none })
      { name := n, phones := [p2], birthday := none },
    "Contact " ++ n ++ " with phone number " ++ p1 ++ " has been added.",
    "Contact " ++ n ++ " with phone number " ++ p2 ++ " has been added.",
    ?_, ?_, ?_⟩
  · simp only [add_contact, mkRecord, if_neg hn]
    rfl
  · simp only [add_contact, mkRecord, if_neg hn]
    rfl
  · simp only [AddressBook.add_record, save_to_disk_data]
    rw [filter_dictInsert _ _ _ (nodup_keys_dictInsert _ _ _ hw)]
    rfl

/-- C3 witness: adding `alice` twice onto the book already holding her. -/
theorem add_twice_same_name_overwrites_witness :
    ("alice" : String) ≠ "" ∧ (bookAlice.data.map Prod.fst).Nodup ∧
    ∃ b1 b2 m1 m2,
      add_contact bookAlice "alice" "111" = Except.ok (b1, m1) ∧
      add_contact b1 "alice" "222" = Except.ok (b2, m2) ∧
      (b2.data.filter (fun e => e.1 == "alice")).map (fun e => e.2.phones) = [["222"]] :=
  ⟨by decide, by decide,
    add_twice_same_name_overwrites bookAlice "alice" "111" "222" (by decide) (by decide)⟩

/-- C5: `remove_record` on a record whose name key is absent raises a
`KeyError`; on a present key it removes the entry, so that `phone` for
that name afterwards reports nonexistence. -/
theorem remove_record_lookup_behavior (b : AddressBook) (r : Record)
    (hw : (b.data.map Prod.fst).Nodup) :
    (containsKey b.data r.name = false →
      AddressBook.remove_record b r = Except.error (PyErr.keyError r.name)) ∧
    (containsKey b.data r.name = true →
      ∃ b', AddressBook.remove_record b r = Except.ok b' ∧
        phone_contact b' r.name = "Contact " ++ r.name ++ " does not exist.") := by
  constructor
  · intro h
    unfold AddressBook.remove_record
    rw [h]
    rfl
  · intro h
    refine ⟨AddressBook.save_to_disk { b with data := dictErase b.data r.name }, ?_, ?_⟩
    · unfold AddressBook.remove_record
      rw [h]
      rfl
    · unfold phone_contact
      rw [save_to_disk_data]
      rw [dictLookup_dictErase_self b.data r.name hw]

/-- C5 witness: removing alice from the one-contact book, then looking
her up. -/
theorem remove_record_lookup_behavior_witness :
    (bookAlice.data.map Prod.fst).Nodup ∧
    containsKey bookAlice.data aliceRec.name = true ∧
    ∃ b', AddressBook.remove_record bookAlice aliceRec = Except.ok b' ∧
      phone_contact b' aliceRec.name = "Contact " ++ aliceRec.name ++ " does not exist." :=
  ⟨by decide, by decide,
    (remove_record_lookup_behavior bookAlice aliceRec (by decide)).2 (by decide)⟩

/-- C6: when `old_name` is present (and the new name is a name, i.e.
non-empty), `edit_record_name` succeeds and moves the record: the new key
maps to the record with the same phone list (and birthday) and its name
field set to `new_name`, and the old key is gone (when it differs from
the new one); when `old_name` is absent it raises a `KeyError`. -/
theorem edit_record_name_moves_record (b : AddressBook) (old_name new_name : String)
    (hw : (b.data.map Prod.fst).Nodup) (hnew : new_name ≠ "") :
    (∀ r, dictLookup b.data old_name = some r →
      ∃ b', AddressBook.edit_record_name b old_name new_name = (b', Except.ok ()) ∧
        dictLookup b'.data new_name = some { r with name := new_name } ∧
        (old_name ≠ new_name → containsKey b'.data old_name = false)) ∧
    (dictLookup b.data old_name = none →
      AddressBook.edit_record_name b old_name new_name =
        (b, Except.error (PyErr.keyError old_name))) := by
  constructor
  · intro r hr
    have key : AddressBook.edit_record_name b old_name new_name =
        (AddressBook.save_to_disk
          { b with
            data := dictInsert (dictErase b.data old_name) new_name
              { r with name := new_name } },
         Except.ok ()) := by
      unfold AddressBook.edit_record_name
      simp only [hr, if_neg hnew]
    refine ⟨_, key, ?_, ?_⟩
    · rw [save_to_disk_data]
      rw [dictLookup_dictInsert_self]
    · intro hne
      unfold containsKey
      rw [save_to_disk_data]
      rw [dictLookup_dictInsert_ne _ _ _ _ hne]
      rw [dictLookup_dictErase_self b.data old_name hw]
      rfl
  · intro hr
    unfold AddressBook.edit_record_name
    rw [hr]

/-- C6 witness: renaming alice to bob in the one-contact book. -/
theorem edit_record_name_moves_record_witness :
    (bookAlice.data.map Prod.fst).Nodup ∧ ("bob" : String) ≠ "" ∧
    dictLookup bookAlice.data "alice" = some aliceRec ∧
    ∃ b', AddressBook.edit_record_name bookAlice "alice" "bob" = (b', Except.ok ()) ∧
      dictLookup b'.data "bob" = some { aliceRec with name := "bob" } ∧
      (("alice" : String) ≠ "bob" → containsKey b'.data "alice" = false) :=
  ⟨by decide, by decide, by decide,
    (edit_record_name_moves_record bookAlice "alice" "bob" (by decide) (by decide)).1
      aliceRec (by decide)⟩

/-- C9: `edit_record_name` is not atomic: with `old_name` present and an
empty new name, the `Name` validation raises after the record was already
popped, so the call reports the validation error and the record is gone —
present under neither the old key nor the (empty) new key. -/
theorem edit_record_name_not_atomic (b : AddressBook) (old_name : String)
    (hw : (b.data.map Prod.fst).Nodup)
    (hno_empty : containsKey b.data "" = false)
    (hold : containsKey b.data old_name = true) :
    ∃ b', AddressBook.edit_record_name b old_name "" =
        (b', Except.error (PyErr.valueError "Name field is required.")) ∧
      containsKey b'.data old_name = false ∧
      containsKey b'.data "" = false := by
  unfold containsKey at hold
  cases hr : dictLookup b.data old_name with
  | none => rw [hr] at hold; simp at hold
  | some r =>
    refine ⟨{ b with data := dictErase b.data old_name }, ?_, ?_, ?_⟩
    · unfold AddressBook.edit_record_name
      rw [hr]
      rfl
    · unfold containsKey
      rw [show ({ b with data := dictErase b.data old_name } : AddressBook).data =
        dictErase b.data old_name from rfl]
      rw [dictLookup_dictErase_self b.data old_name hw]
      rfl
    · unfold containsKey
      rw [show ({ b with data := dictErase b.data old_name } : AddressBook).data =
        dictErase b.data old_name from rfl]
      have hmem : ("" : String) ∉ (dictErase b.data old_name).map Prod.fst := by
        intro hm
        have hsome :=
          dictLookup_isSome_of_mem b.data "" (mem_keys_dictErase b.data old_name "" hm)
        unfold containsKey at hno_empty
        rw [hno_empty] at hsome
        exact absurd hsome Bool.false_ne_true
      rw [dictLookup_eq_none_of_not_mem _ _ hmem]
      rfl

/-- C9 witness: renaming alice to the empty string in the one-contact
book. -/
theorem edit_record_name_not_atomic_witness :
    (bookAlice.data.map Prod.fst).Nodup ∧
    containsKey bookAlice.data "" = false ∧
    containsKey bookAlice.data "alice" = true ∧
    ∃ b', AddressBook.edit_record_name bookAlice "alice" "" =
        (b', Except.error (PyErr.valueError "Name field is required.")) ∧
      containsKey b'.data "alice" = false ∧
      containsKey b'.data "" = false :=
  ⟨by decide, by decide, by decide,
    edit_record_name_not_atomic bookAlice "alice" (by decide) (by decide) (by decide)⟩

theorem dateLt_self (d : Date) : dateLt d d = false := by
  simp [dateLt]

/-- C7 counterexample: for a February 29 birthday with today = 2024-03-01
(a leap year, the birthday's month/day already passed), the claim's
"returns the exact day count to next year's occurrence" fails: the code
raises a `ValueError` while constructing 2025-02-29 instead of returning
a day count. -/
theorem days_to_birthday_feb29_passed_counterexample :
    dateValid ⟨2024, 2, 29⟩ = true ∧
    dateLt ⟨2024, 2, 29⟩ ⟨2024, 3, 1⟩ = true ∧
    Record.days_to_birthday ⟨2024, 3, 1⟩
        { name := "x", phones := [], birthday := some ⟨1996, 2, 29⟩ } =
      Except.error (PyErr.valueError "day is out of range for month") :=
  ⟨by decide, by decide, by rfl⟩

/-- C7 (amended with validity provisos): no birthday gives the absence
marker; a birthday whose month/day is today's gives 0; when this year's
occurrence is a valid date strictly before today and next year's
occurrence is also a valid date, the result is the day count to next
year's occurrence; when this year's occurrence is a valid date not
before today, the day count to this year's occurrence. -/
theorem days_to_birthday_characterization (today : Date) (r : Record)
    (ht : dateValid today = true) :
    (r.birthday = none → Record.days_to_birthday today r = Except.ok none) ∧
    (∀ b, r.birthday = some b →
      ((b.month = today.month ∧ b.day = today.day) →
        Record.days_to_birthday today r = Except.ok (some 0)) ∧
      (dateValid ⟨today.year, b.month, b.day⟩ = true →
        dateLt ⟨today.year, b.month, b.day⟩ today = true →
        dateValid ⟨today.year + 1, b.month, b.day⟩ = true →
        Record.days_to_birthday today r =
          Except.ok (some (daysUntil today ⟨today.year + 1, b.month, b.day⟩))) ∧
      (dateValid ⟨today.year, b.month, b.day⟩ = true →
        dateLt ⟨today.year, b.month, b.day⟩ today = false →
        Record.days_to_birthday today r =
          Except.ok (some (daysUntil today ⟨today.year, b.month, b.day⟩)))) := by
  constructor
  · intro h
    simp [Record.days_to_birthday, h]
  · intro b hb
    refine ⟨?_, ?_, ?_⟩
    · rintro ⟨hm, hd⟩
      have hmk : mkDate today.year b.month b.day = Except.ok today := by
        rw [hm, hd]
        unfold mkDate
        rw [show (⟨today.year, today.month, today.day⟩ : Date) = today from rfl, ht]
        rfl
      simp [Record.days_to_birthday, hb, hmk, dateLt_self, daysUntil]
    · intro hv1 hlt hv2
      have hmk1 : mkDate today.year b.month b.day =
          Except.ok ⟨today.year, b.month, b.day⟩ := by
        unfold mkDate
        rw [hv1]
        rfl
      have hmk2 : mkDate (today.year + 1) b.month b.day =
          Except.ok ⟨today.year + 1, b.month, b.day⟩ := by
        unfold mkDate
        rw [hv2]
        rfl
      simp [Record.days_to_birthday, hb, hmk1, hmk2, hlt]
    · intro hv1 hlt
      have hmk1 : mkDate today.year b.month b.day =
          Except.ok ⟨today.year, b.month, b.day⟩ := by
        unfold mkDate
        rw [hv1]
        rfl
      simp [Record.days_to_birthday, hb, hmk1, hlt]

/-- C7 witness: birthday 1990-03-01 with today = 2024-05-10: the
occurrence already passed, so the result is the 295 days until
2025-03-01. -/
theorem days_to_birthday_characterization_witness :
    dateValid ⟨2024, 5, 10⟩ = true ∧
    dateValid ⟨2024, 3, 1⟩ = true ∧
    dateLt ⟨2024, 3, 1⟩ ⟨2024, 5, 10⟩ = true ∧
    dateValid ⟨2025, 3, 1⟩ = true ∧
    Record.days_to_birthday ⟨2024, 5, 10⟩
        { name := "a", phones := [], birthday := some ⟨1990, 3, 1⟩ } =
      Except.ok (some 295) :=
  ⟨by decide, by decide, by decide, by decide, by
    have h := ((days_to_birthday_characterization ⟨2024, 5, 10⟩
        { name := "a", phones := [], birthday := some ⟨1990, 3, 1⟩ }
        (by decide)).2 ⟨1990, 3, 1⟩ rfl).2.1 (by decide) (by decide) (by decide)
    rw [h]
    rfl⟩

/-- C10: `days_to_birthday` is not total on valid birthdays: for a
February 29 birthday, when the relevant occurrence year (the current
year, or the next one when this year's date has passed) is not a leap
year, the call raises a date-construction error instead of returning a
day count. -/
theorem days_to_birthday_feb29_raises (today : Date) (r : Record) (b : Date)
    (ht : dateValid today = true)
    (hb : r.birthday = some b) (hm : b.month = 2) (hd : b.day = 29)
    (hy : isLeap today.year = false ∨
      (dateLt ⟨today.year, 2, 29⟩ today = true ∧ isLeap (today.year + 1) = false)) :
    ∃ e, Record.days_to_birthday today r = Except.error e := by
  refine ⟨PyErr.valueError "day is out of range for month", ?_⟩
  rcases hy with h1 | ⟨h2, h3⟩
  · have hv : dateValid ⟨today.year, 2, 29⟩ = false := by
      simp [dateValid, daysInMonth, h1]
    simp [Record.days_to_birthday, hb, hm, hd, mkDate, hv]
  · by_cases hleap : isLeap today.year = true
    · have hbounds : 1 ≤ today.year ∧ today.year ≤ 9999 := by
        simp only [dateValid, Bool.and_eq_true, decide_eq_true_eq] at ht
        exact ⟨ht.1.1.1.1.1, ht.1.1.1.1.2⟩
      have hv1 : dateValid ⟨today.year, 2, 29⟩ = true := by
        simp [dateValid, daysInMonth, hleap, hbounds.1, hbounds.2]
      have hv2 : dateValid ⟨today.year + 1, 2, 29⟩ = false := by
        simp [dateValid, daysInMonth, h3]
      simp [Record.days_to_birthday, hb, hm, hd, mkDate, hv1, hv2, h2]
    · have h1 : isLeap today.year = false := by
        cases hx : isLeap today.year with
        | false => rfl
        | true => exact absurd hx hleap
      have hv : dateValid ⟨today.year, 2, 29⟩ = false := by
        simp [dateValid, daysInMonth, h1]
      simp [Record.days_to_birthday, hb, hm, hd, mkDate, hv]

/-- C10 witness: birthday 1996-02-29 with today = 2023-07-01 (2023 is
not a leap year): the call errors. -/
theorem days_to_birthday_feb29_raises_witness :
    dateValid ⟨2023, 7, 1⟩ = true ∧
    (isLeap 2023 = false ∨
      (dateLt ⟨2023, 2, 29⟩ ⟨2023, 7, 1⟩ = true ∧ isLeap 2024 = false)) ∧
    ∃ e, Record.days_to_birthday ⟨2023, 7, 1⟩
        { name := "x", phones := [], birthday := some ⟨1996, 2, 29⟩ } =
      Except.error e :=
  ⟨by decide, Or.inl (by decide),
    days_to_birthday_feb29_raises ⟨2023, 7, 1⟩
      { name := "x", phones := [], birthday := some ⟨1996, 2, 29⟩ }
      ⟨1996, 2, 29⟩ (by decide) rfl rfl rfl (Or.inl (by decide))⟩

theorem isLeap_spec (y : Nat) :
    isLeap y = true ↔ (y % 4 = 0 ∧ (y % 100 ≠ 0 ∨ y % 400 = 0)) := by
  simp [isLeap]

theorem daysBeforeMonth_succ (y m : Nat) (h1 : 1 ≤ m) (h2 : m ≤ 11) :
    daysBeforeMonth y (m + 1) = daysBeforeMonth y m + daysInMonth y m := by
  interval_cases m <;> cases hL : isLeap y <;> simp [daysBeforeMonth, daysInMonth, hL]

/-- Leap years in terms of divisibility. -/
theorem isLeap_dvd (y : Nat) :
    isLeap y = true ↔ (4 ∣ y ∧ (¬ (100 ∣ y) ∨ 400 ∣ y)) := by
  rw [isLeap_spec]
  omega

/-- The part of `toOrdinal` contributed by whole years grows by 365 or
366 from one year to the next, according to leapness. -/
theorem daysBeforeYear_succ (y : Nat) (hy : 1 ≤ y) :
    365 * y + y / 4 - y / 100 + y / 400 =
    365 * (y - 1) + (y - 1) / 4 - (y - 1) / 100 + (y - 1) / 400 + 365 +
      (if isLeap y = true then 1 else 0) := by
  obtain ⟨x, rfl⟩ : ∃ x, y = x + 1 := ⟨y - 1, by omega⟩
  simp only [Nat.add_sub_cancel]
  have hq : x / 100 ≤ x := Nat.div_le_self x 100
  rw [Nat.succ_div x 4, Nat.succ_div x 100, Nat.succ_div x 400]
  generalize hq4 : x / 4 = q4
  generalize hq100 : x / 100 = q100
  generalize hq400 : x / 400 = q400
  rw [hq100] at hq
  by_cases h4 : 4 ∣ (x + 1)
  · by_cases h100 : 100 ∣ (x + 1)
    · by_cases h400 : 400 ∣ (x + 1)
      · rw [if_pos h4, if_pos h100, if_pos h400,
          if_pos ((isLeap_dvd (x + 1)).mpr ⟨h4, Or.inr h400⟩)]
        omega
      · rw [if_pos h4, if_pos h100, if_neg h400,
          if_neg (fun hc => ((isLeap_dvd (x + 1)).mp hc).2.elim
            (fun h => h h100) (fun h => h400 h))]
        omega
    · by_cases h400 : 400 ∣ (x + 1)
      · exact absurd ((show (100 : Nat) ∣ 400 by norm_num).trans h400) h100
      · rw [if_pos h4, if_neg h100, if_neg h400,
          if_pos ((isLeap_dvd (x + 1)).mpr ⟨h4, Or.inl h100⟩)]
        omega
  · by_cases h100 : 100 ∣ (x + 1)
    · exact absurd ((show (4 : Nat) ∣ 100 by norm_num).trans h100) h4
    · by_cases h400 : 400 ∣ (x + 1)
      · exact absurd ((show (4 : Nat) ∣ 400 by norm_num).trans h400) h4
      · rw [if_neg h4, if_neg h100, if_neg h400,
          if_neg (fun hc => h4 ((isLeap_dvd (x + 1)).mp hc).1)]
        omega

/-- `toOrdinal` counts calendar days: stepping one calendar day forward
increments the ordinal by exactly one.  This certifies `daysUntil` as the
day count between dates. -/
theorem toOrdinal_nextDate (d : Date) (h : dateValid d = true) :
    toOrdinal (nextDate d) = toOrdinal d + 1 := by
  obtain ⟨y, m, dd⟩ := d
  simp only [dateValid, Bool.and_eq_true, decide_eq_true_eq] at h
  obtain ⟨⟨⟨⟨⟨hy1, hy2⟩, hm1⟩, hm2⟩, hd1⟩, hd2⟩ := h
  unfold nextDate
  by_cases hlt : dd < daysInMonth y m
  · simp only [if_pos hlt, toOrdinal]
    exact (Nat.add_assoc _ _ _).symm
  · have hdd : dd = daysInMonth y m := le_antisymm hd2 (not_lt.mp hlt)
    by_cases hm12 : m < 12
    · simp only [if_neg hlt, if_pos hm12, toOrdinal]
      rw [hdd, daysBeforeMonth_succ y m hm1 (by omega)]
      generalize daysBeforeMonth y m = q
      generalize daysInMonth y m = w
      omega
    · have hm2' : m = 12 := by omega
      subst hm2'
      have hdim : daysInMonth y 12 = 31 := by simp [daysInMonth]
      rw [hdim] at hdd
      subst hdd
      simp only [if_neg hlt, if_neg hm12, toOrdinal, Nat.add_sub_cancel]
      have e1 : daysBeforeMonth (y + 1) 1 = 0 := by
        unfold daysBeforeMonth
        rw [if_neg]
        rintro ⟨hc, -⟩
        omega
      rw [e1, daysBeforeYear_succ y hy1]
      by_cases hL : isLeap y = true
      · have e12 : daysBeforeMonth y 12 = 335 := by
          unfold daysBeforeMonth
          rw [if_pos (And.intro (by omega) hL)]
        rw [e12, if_pos hL]
      · have e12 : daysBeforeMonth y 12 = 334 := by
          unfold daysBeforeMonth
          rw [if_neg (fun hc => hL hc.2)]
        rw [e12, if_neg hL]
